import Mathlib

/-!
Shallow embedding of `src/udon.c` (a minimal X11 status-bar updater) and
proofs about it.  The program opens three pseudo-files, and in an infinite
loop reads them, formats a status line, and stores it as the root window
name.  Machine strings are modelled as `List Char`, file descriptors as a
record of file contents plus an error disposition, buffer stores as explicit
(index, value) write lists, and C `double` values as an exact-rational
surrogate with explicit non-finite values.
-/

namespace Udon

/-- Terminator character stored at the end of C strings. -/
def nulChar : Char := Char.ofNat 0

/-- Path macro LOADAVG from udon.c line 15. -/
def LOADAVG : String := "/proc/loadavg"

/-- Path macro ENGYNOW from udon.c line 16. -/
def ENGYNOW : String := "/sys/class/power_supply/BAT0/energy_now"

/-- Path macro ENGYFUL from udon.c line 17. -/
def ENGYFUL : String := "/sys/class/power_supply/BAT0/energy_full"

/-- Standard successful exit status. -/
def EXIT_SUCCESS : Nat := 0

/-- Standard failure exit status (used by `die`). -/
def EXIT_FAILURE : Nat := 1

/-- Linux errno value for an invalid argument. -/
def EINVAL : Nat := 22

/-- Linux errno value for an input/output error. -/
def EIO : Nat := 5

/-- Model of libc `strerror`: maps an errno value to its description. -/
def strerror (e : Nat) : String :=
  if e = 5 then "Input/output error"
  else if e = 13 then "Permission denied"
  else if e = 22 then "Invalid argument"
  else "Unknown error"

/-- Model of an open read-only file descriptor.  `contents` is the file's
current text, `pos` the kernel file offset (unused by `pread`, kept to show
that `cat` is insensitive to earlier sequential reads), and `err` is `some e`
when any read on the descriptor fails with errno `e`, `none` when reads
succeed. -/
structure FileDesc where
  contents : List Char
  pos : Nat
  err : Option Nat
deriving DecidableEq

/-- Model of POSIX `pread(fd, buf, count, off)`: reads up to `count` bytes
starting at absolute offset `off`, ignoring (and not changing) the file
offset `fd.pos`.  Returns the bytes read, or the errno on failure. -/
def pread (fd : FileDesc) (count : Nat) (off : Nat) : Except Nat (List Char) :=
  match fd.err with
  | some e => Except.error e
  | none => Except.ok ((fd.contents.drop off).take count)

/-- Buffer stores performed by a memory copy: byte `k` of `cs` is stored at
index `n + k`. -/
def idxWrites : Nat → List Char → List (Nat × Char)
  | _, [] => []
  | n, c :: cs => (n, c) :: idxWrites (n + 1) cs

/-- Outcome of `cat` (udon.c lines 51-65).  `ok data writes` models a
non-negative return value `data.length` with the listed buffer stores;
`err e writes` models the C return value `-1` with `errno` set to `e`. -/
inductive CatResult where
  | ok (data : List Char) (writes : List (Nat × Char))
  | err (errno : Nat) (writes : List (Nat × Char))
deriving DecidableEq

/-- Buffer stores performed by a `CatResult`. -/
def CatResult.writes : CatResult → List (Nat × Char)
  | CatResult.ok _ w => w
  | CatResult.err _ w => w

/-- Embedding of `cat` (udon.c lines 51-65): reject `len <= 0` with EINVAL;
otherwise `pread(fd, buf, len - 1, 0)`, and when that succeeds store the
bytes read at indices `0..ret-1` followed by a terminator at index `ret`
(`buf[ret] = '\0'`, line 62).  On a failed `pread` nothing is stored. -/
def cat (fd : FileDesc) (len : Nat) : CatResult :=
  if len = 0 then CatResult.err EINVAL []
  else
    match pread fd (len - 1) 0 with
    | Except.error e => CatResult.err e []
    | Except.ok data =>
        CatResult.ok data (idxWrites 0 data ++ [(data.length, nulChar)])

/-- Applies a list of (index, value) stores to a buffer, in order. -/
def applyWrites (buf : Nat → Char) : List (Nat × Char) → Nat → Char
  | [] => buf
  | w :: ws => applyWrites (fun k => if k = w.1 then w.2 else buf k) ws

/-- Tests whether a character is one of the whitespace characters skipped by
`strtod` (space, tab, newline, carriage return, vertical tab, form feed). -/
def isSpaceC (c : Char) : Bool :=
  c = ' ' || c = '\t' || c = '\n' || c = '\r' || c = Char.ofNat 11 || c = Char.ofNat 12

/-- Value of a list of decimal digit characters, most significant first. -/
def digitsVal (ds : List Char) : Nat :=
  ds.foldl (fun a c => 10 * a + (c.toNat - 48)) 0

/-- Model of libc `atof` (= `strtod` with the result as an exact rational):
skip leading whitespace, read an optional sign, decimal digits, an optional
fractional part and an optional decimal exponent, ignoring trailing text.
If no digits are present the value is 0.  Hexadecimal, infinity and NaN
spellings are out of scope: the program only applies `atof` to sysfs
integer strings. -/
def atofChars (cs0 : List Char) : ℚ :=
  let cs1 := cs0.dropWhile isSpaceC
  let sign : Bool × List Char :=
    match cs1 with
    | '-' :: r => (true, r)
    | '+' :: r => (false, r)
    | _ => (false, cs1)
  let intPart := sign.2.takeWhile Char.isDigit
  let rest1 := sign.2.dropWhile Char.isDigit
  let frac : List Char × List Char :=
    match rest1 with
    | '.' :: r => (r.takeWhile Char.isDigit, r.dropWhile Char.isDigit)
    | _ => ([], rest1)
  let mantissa : ℚ :=
    (digitsVal intPart : ℚ) + (digitsVal frac.1 : ℚ) / (10 : ℚ) ^ frac.1.length
  let expVal : Int :=
    match frac.2 with
    | 'e' :: r =>
        (match r with
         | '-' :: r2 =>
             (if (r2.takeWhile Char.isDigit).isEmpty then 0
              else -(digitsVal (r2.takeWhile Char.isDigit) : Int))
         | '+' :: r2 =>
             (if (r2.takeWhile Char.isDigit).isEmpty then 0
              else (digitsVal (r2.takeWhile Char.isDigit) : Int))
         | _ =>
             (if (r.takeWhile Char.isDigit).isEmpty then 0
              else (digitsVal (r.takeWhile Char.isDigit) : Int)))
    | 'E' :: r =>
        (match r with
         | '-' :: r2 =>
             (if (r2.takeWhile Char.isDigit).isEmpty then 0
              else -(digitsVal (r2.takeWhile Char.isDigit) : Int))
         | '+' :: r2 =>
             (if (r2.takeWhile Char.isDigit).isEmpty then 0
              else (digitsVal (r2.takeWhile Char.isDigit) : Int))
         | _ =>
             (if (r.takeWhile Char.isDigit).isEmpty then 0
              else (digitsVal (r.takeWhile Char.isDigit) : Int)))
    | _ => 0
  let v := mantissa * (10 : ℚ) ^ expVal
  if sign.1 then -v else v

/-- Surrogate for a C `double`: an exact rational, or one of the IEEE 754
non-finite values (signed infinity, NaN). -/
inductive FloatVal where
  | finite (q : ℚ)
  | inf (neg : Bool)
  | nan
deriving DecidableEq

/-- Tests whether a `FloatVal` is finite. -/
def FloatVal.isFinite : FloatVal → Bool
  | FloatVal.finite _ => true
  | _ => false

/-- IEEE 754 division of finite values: finite quotient for a nonzero
divisor; dividing a nonzero value by zero yields a signed infinity and
0 / 0 yields NaN. -/
def fdiv (x y : ℚ) : FloatVal :=
  if y = 0 then
    (if x = 0 then FloatVal.nan else FloatVal.inf (decide (x < 0)))
  else FloatVal.finite (x / y)

/-- Rendering of `printf` conversion `%.2u`: the decimal numeral padded with
leading zeros to at least two digits. -/
def pad2 (n : Nat) : String :=
  if n < 10 then "0" ++ toString n else toString n

/-- The value `q` rounded to two decimal places. -/
def roundTo2 (q : ℚ) : ℚ := ((round (100 * q) : Int) : ℚ) / 100

/-- Rendering of `printf` conversion `%.2f` on a finite value: the value
rounded to the nearest hundredth, printed with exactly two digits after the
decimal point. -/
def fixed2Rat (q : ℚ) : String :=
  (if round (100 * q) < 0 then "-" else "") ++
    toString ((round (100 * q) : Int).natAbs / 100) ++ "." ++
    pad2 ((round (100 * q) : Int).natAbs % 100)

/-- Rendering of `printf` conversion `%.2f`; glibc prints non-finite values
as `inf` / `-inf` / `nan`. -/
def fixed2 : FloatVal → String
  | FloatVal.finite q => fixed2Rat q
  | FloatVal.inf b => if b then "-inf" else "inf"
  | FloatVal.nan => "nan"

/-- The untruncated string built by the `snprintf` format
`"%.2u:%.2u:%.2u  %.2f %.2f %.2f  %.2f"` (udon.c line 148) from the time
fields, the three load-average values and the battery quotient. -/
def formatLine (hh mm ss : Nat) (a1 a5 a15 bat : FloatVal) : String :=
  pad2 hh ++ ":" ++ pad2 mm ++ ":" ++ pad2 ss ++ "  " ++
  fixed2 a1 ++ " " ++ fixed2 a5 ++ " " ++ fixed2 a15 ++ "  " ++ fixed2 bat

/-- Size of the display buffer `nam` (udon.c line 123). -/
def NAMSIZE : Nat := 128

/-- Size of the read buffers `avg`, `now`, `ful` (udon.c lines 124-126). -/
def AVGSIZE : Nat := 32

/-- Content of the buffer `nam` as a string after `snprintf(nam, 128, ...)`:
at most 127 content bytes (`snprintf` truncates and always terminates). -/
def trunc (s : String) : String := String.mk (s.data.take (NAMSIZE - 1))

/-- Buffer stores into `nam` during one iteration's formatting (udon.c lines
148-159): `snprintf` stores `min (NAMSIZE - 1) s.length` content bytes and a
terminator right after them; then, when the untruncated length `ret` is at
least `sizeof nam`, line 159 executes `nam[sizeof nam] = '\0'`, an
additional store at index `NAMSIZE`. -/
def namWrites (s : String) : List (Nat × Char) :=
  let content := s.data.take (NAMSIZE - 1)
  let base := idxWrites 0 content ++ [(content.length, nulChar)]
  if NAMSIZE ≤ s.length then base ++ [(NAMSIZE, nulChar)] else base

/-- Outcome of one iteration of the main loop (udon.c lines 122-166).
`ok name` means the iteration completed: `name` is the string passed to
`XStoreName` (the root window name), the update is flushed and the loop
continues with the next iteration after `sleep(1)`.  `died msg code` means
`die` was called: `msg` is written to standard error and the process exits
immediately with status `code`; no retry happens. -/
inductive StepResult where
  | ok (name : String)
  | died (msg : String) (code : Nat)
deriving DecidableEq

/-- Embedding of one iteration of the main loop (udon.c lines 122-166),
given the `gmtime` fields `hh:mm:ss` and the file descriptors.

The call `sscanf(avg, "%.2f %.2f %.2f", &avg1, &avg5, &avg15)` (line 138)
uses an invalid conversion specification: `scanf` conversions admit no
precision, so `%.2f` is not a conversion (C17 7.21.6.2p3: the behavior is
undefined; glibc performs no conversion and returns 0), and `%f` would in
any case require `float *` arguments while `avg1`, `avg5`, `avg15` are
`double`.  The three variables therefore keep their indeterminate
(uninitialized) values, passed here as `j1 j5 j15`.

The battery quotient is `atof(now) / atof(ful)` (line 155), computed on the
strings `cat` placed in the 32-byte buffers. -/
def step (hh mm ss : Nat) (j1 j5 j15 : FloatVal) (lf nf ff : FileDesc) : StepResult :=
  match cat lf AVGSIZE with
  | CatResult.err e _ =>
      StepResult.died ("Failed to read from “" ++ LOADAVG ++ "”: " ++ strerror e ++ "\n") EXIT_FAILURE
  | CatResult.ok _ _ =>
    match cat nf AVGSIZE with
    | CatResult.err e _ =>
        StepResult.died ("Failed to read from “" ++ ENGYNOW ++ "”: " ++ strerror e ++ "\n") EXIT_FAILURE
    | CatResult.ok nowData _ =>
      match cat ff AVGSIZE with
      | CatResult.err e _ =>
          StepResult.died ("Failed to read from “" ++ ENGYFUL ++ "”: " ++ strerror e ++ "\n") EXIT_FAILURE
      | CatResult.ok fulData _ =>
          StepResult.ok
            (trunc (formatLine hh mm ss j1 j5 j15 (fdiv (atofChars nowData) (atofChars fulData))))

/-- Signal number of SIGHUP. -/
def SIGHUP : Nat := 1

/-- Signal number of SIGINT. -/
def SIGINT : Nat := 2

/-- Signal number of SIGTERM. -/
def SIGTERM : Nat := 15

/-- The signals for which `main` installs `onsignal` via `sigaction`
(udon.c lines 105-107). -/
def handledSignals : List Nat := [SIGHUP, SIGINT, SIGTERM]

/-- Observable process state for the lifecycle model: the root window's
name, whether the X display connection is open, how many times the exit
handler has run, and the exit status once the process has terminated. -/
structure ProcState where
  rootName : String
  displayOpen : Bool
  cleanupRuns : Nat
  exited : Option Nat
deriving DecidableEq

/-- Embedding of the exit handler `onexit` (udon.c lines 70-74): reset the
root window name to the empty string and close the display connection. -/
def onexit (s : ProcState) : ProcState :=
  { s with rootName := "", displayOpen := false, cleanupRuns := s.cleanupRuns + 1 }

/-- Model of libc `exit(code)`: run the handler registered with `atexit`
(`onexit`, registered once at udon.c line 95), then terminate the process
with the given status. -/
def exitWith (code : Nat) (s : ProcState) : ProcState :=
  { onexit s with exited := some code }

/-- Embedding of the signal handler `onsignal` (udon.c lines 81-83):
`exit(EXIT_SUCCESS)`. -/
def onsignal (s : ProcState) : ProcState := exitWith EXIT_SUCCESS s

/-- Delivery of signal `sig` to the running process: the three signals with
`onsignal` installed run the handler; any other signal keeps its default
disposition, which terminates the process abnormally (status `128 + sig`)
without running exit handlers. -/
def deliver (sig : Nat) (s : ProcState) : ProcState :=
  if sig ∈ handledSignals then onsignal s
  else { s with exited := some (128 + sig) }

/-- Concrete status line of an iteration whose formatted content exceeds the
128-byte buffer `nam`: the time is 07:09:03, the battery reads are
5000/10000, and the indeterminate (never assigned, see `step`) load-average
variables happen to hold the representable double 1e130, 0 and 0.  Its
length is 160. -/
def longLine : String :=
  formatLine 7 9 3 (FloatVal.finite ((10 : ℚ) ^ 130)) (FloatVal.finite 0)
    (FloatVal.finite 0) (fdiv 5000 10000)

end Udon

namespace Udon

lemma applyWrites_nil (buf : Nat → Char) : applyWrites buf [] = buf := rfl

lemma applyWrites_cons (buf : Nat → Char) (w : Nat × Char) (ws : List (Nat × Char)) :
    applyWrites buf (w :: ws) = applyWrites (fun k => if k = w.1 then w.2 else buf k) ws := rfl

lemma applyWrites_append (buf : Nat → Char) (xs ys : List (Nat × Char)) :
    applyWrites buf (xs ++ ys) = applyWrites (applyWrites buf xs) ys := by
  induction xs generalizing buf with
  | nil => rfl
  | cons w xs ih => simp [applyWrites_cons, ih]

lemma applyWrites_of_notMem (buf : Nat → Char) (ws : List (Nat × Char)) (i : Nat)
    (h : ∀ p ∈ ws, p.1 ≠ i) : applyWrites buf ws i = buf i := by
  induction ws generalizing buf with
  | nil => rfl
  | cons w ws ih =>
      rw [applyWrites_cons, ih _ (fun p hp => h p (List.mem_cons_of_mem w hp))]
      have hne : i ≠ w.1 := fun he => h w (List.mem_cons_self w ws) he.symm
      simp [hne]

lemma idxWrites_mem (n : Nat) (ds : List Char) (p : Nat × Char) (h : p ∈ idxWrites n ds) :
    n ≤ p.1 ∧ p.1 < n + ds.length := by
  induction ds generalizing n with
  | nil => simp [idxWrites] at h
  | cons d ds ih =>
      rw [idxWrites] at h
      rcases List.mem_cons.mp h with h1 | h2
      · subst h1; simp
      · have := ih (n + 1) h2
        constructor
        · omega
        · simp only [List.length_cons]; omega

lemma applyWrites_idxWrites (ds : List Char) (n k : Nat) (buf : Nat → Char)
    (h : k < ds.length) :
    applyWrites buf (idxWrites n ds) (n + k) = ds.get ⟨k, h⟩ := by
  induction ds generalizing n k buf with
  | nil => simp at h
  | cons d ds ih =>
      rw [idxWrites, applyWrites_cons]
      cases k with
      | zero =>
          rw [applyWrites_of_notMem]
          · simp
          · intro p hp he
            have := (idxWrites_mem (n + 1) ds p hp).1
            omega
      | succ k =>
          have hk : k < ds.length := by simpa using h
          have := ih (n + 1) k (fun j => if j = n then d else buf j) hk
          have harith : n + (k + 1) = (n + 1) + k := by omega
          rw [harith, this]
          rfl

lemma cat_of_err (fd : FileDesc) (len e : Nat) (h0 : len ≠ 0) (he : fd.err = some e) :
    cat fd len = CatResult.err e [] := by
  simp [cat, pread, he, h0]

lemma cat_of_ok (fd : FileDesc) (len : Nat) (h0 : len ≠ 0) (he : fd.err = none) :
    cat fd len = CatResult.ok (fd.contents.take (len - 1))
      (idxWrites 0 (fd.contents.take (len - 1)) ++
        [((fd.contents.take (len - 1)).length, nulChar)]) := by
  simp [cat, pread, he, h0]

end Udon

namespace Udon

lemma applyWrites_catWrites (buf : Nat → Char) (ds : List Char) (i : Nat) :
    applyWrites buf (idxWrites 0 ds ++ [(ds.length, nulChar)]) i =
      if h : i < ds.length then ds.get ⟨i, h⟩
      else if i = ds.length then nulChar else buf i := by
  rw [applyWrites_append, applyWrites_cons, applyWrites_nil]
  by_cases h1 : i < ds.length
  · have hne : i ≠ ds.length := by omega
    simp only [hne, if_false, dif_pos h1]
    have := applyWrites_idxWrites ds 0 i buf h1
    simpa using this
  · by_cases h2 : i = ds.length
    · simp [h2]
    · simp only [h2, if_false, dif_neg h1]
      exact applyWrites_of_notMem buf _ i
        (fun p hp he => by
          have := (idxWrites_mem 0 ds p hp).2
          omega)

/-- C6: a successful call to `cat` with buffer capacity `len > 0` reads at
most `len - 1` bytes from offset zero of the file — regardless of the file
offset left by earlier reads on the handle — returns the count of bytes
read, and leaves the buffer null-terminated immediately after the bytes
read. -/
theorem cat_reads_from_start_and_terminates (fd : FileDesc) (len : Nat) (buf : Nat → Char)
    (hlen : 0 < len) (hok : fd.err = none) :
    cat fd len = CatResult.ok (fd.contents.take (len - 1))
        (idxWrites 0 (fd.contents.take (len - 1)) ++
          [((fd.contents.take (len - 1)).length, nulChar)]) ∧
    (fd.contents.take (len - 1)).length ≤ len - 1 ∧
    (∀ p, cat { fd with pos := p } len = cat fd len) ∧
    applyWrites buf (CatResult.writes (cat fd len))
        (fd.contents.take (len - 1)).length = nulChar ∧
    (∀ i (hi : i < (fd.contents.take (len - 1)).length),
        applyWrites buf (CatResult.writes (cat fd len)) i =
          (fd.contents.take (len - 1)).get ⟨i, hi⟩) := by
  have h0 : len ≠ 0 := by omega
  have hcat := cat_of_ok fd len h0 hok
  refine ⟨hcat, ?_, ?_, ?_, ?_⟩
  · simp only [List.length_take]
    exact Nat.min_le_left _ _
  · intro p
    rw [cat_of_ok { fd with pos := p } len h0 hok, cat_of_ok fd len h0 hok]
  · rw [hcat]
    simp only [CatResult.writes, applyWrites_catWrites]
    simp
  · intro i hi
    rw [hcat]
    simp only [CatResult.writes, applyWrites_catWrites]
    exact dif_pos hi

/-- Witness for `cat_reads_from_start_and_terminates` at a concrete
descriptor, capacity 8 and buffer. -/
theorem cat_reads_from_start_and_terminates_witness :
    cat ⟨"0.50 0.75 1.20\n".data, 3, none⟩ 8 =
        CatResult.ok (("0.50 0.75 1.20\n".data).take 7)
          (idxWrites 0 (("0.50 0.75 1.20\n".data).take 7) ++
            [((("0.50 0.75 1.20\n".data).take 7).length, nulChar)]) ∧
      (("0.50 0.75 1.20\n".data).take 7).length ≤ 7 ∧
      (∀ p, cat { (⟨"0.50 0.75 1.20\n".data, 3, none⟩ : FileDesc) with pos := p } 8 =
          cat ⟨"0.50 0.75 1.20\n".data, 3, none⟩ 8) ∧
      applyWrites (fun _ => 'A') (CatResult.writes (cat ⟨"0.50 0.75 1.20\n".data, 3, none⟩ 8))
          (("0.50 0.75 1.20\n".data).take 7).length = nulChar ∧
      (∀ i (hi : i < (("0.50 0.75 1.20\n".data).take 7).length),
          applyWrites (fun _ => 'A') (CatResult.writes (cat ⟨"0.50 0.75 1.20\n".data, 3, none⟩ 8)) i =
            (("0.50 0.75 1.20\n".data).take 7).get ⟨i, hi⟩) :=
  cat_reads_from_start_and_terminates ⟨"0.50 0.75 1.20\n".data, 3, none⟩ 8
    (fun _ => 'A') (by decide) rfl

/-- C7: calling `cat` with buffer capacity zero fails with the
invalid-argument errno EINVAL, performs no buffer store, and does not read
the file (the result does not depend on the descriptor at all). -/
theorem cat_zero_capacity_rejected (fd : FileDesc) :
    cat fd 0 = CatResult.err EINVAL [] ∧
    (∀ fd2 : FileDesc, cat fd2 0 = cat fd 0) :=
  ⟨rfl, fun _ => rfl⟩

/-- C9: when the underlying `pread` fails, `cat` performs no buffer store at
all — in particular it stores no terminator — so the buffer is unchanged. -/
theorem cat_error_path_writes_nothing (fd : FileDesc) (len e : Nat)
    (hlen : 0 < len) (he : fd.err = some e) :
    cat fd len = CatResult.err e [] ∧
    (∀ (buf : Nat → Char) (i : Nat),
        applyWrites buf (CatResult.writes (cat fd len)) i = buf i) := by
  have h0 : len ≠ 0 := by omega
  have hc := cat_of_err fd len e h0 he
  exact ⟨hc, fun buf i => by rw [hc]; rfl⟩

/-- Witness for `cat_error_path_writes_nothing` at a concrete failing
descriptor. -/
theorem cat_error_path_writes_nothing_witness :
    cat ⟨"5000\n".data, 0, some EIO⟩ 32 = CatResult.err EIO [] ∧
    (∀ (buf : Nat → Char) (i : Nat),
        applyWrites buf (CatResult.writes (cat ⟨"5000\n".data, 0, some EIO⟩ 32)) i = buf i) :=
  cat_error_path_writes_nothing ⟨"5000\n".data, 0, some EIO⟩ 32 EIO (by decide) rfl

/-- C10: every buffer index stored by `cat` with capacity `len > 0` is
strictly below `len`: on success at most `len - 1` data bytes go to indices
`0 .. len - 2` and the terminator goes to index `ret ≤ len - 1`. -/
theorem cat_writes_stay_in_bounds (fd : FileDesc) (len : Nat) (hlen : 0 < len) :
    (∀ p ∈ CatResult.writes (cat fd len), p.1 < len) ∧
    (∀ data w, cat fd len = CatResult.ok data w →
        data.length ≤ len - 1 ∧ w = idxWrites 0 data ++ [(data.length, nulChar)]) := by
  have h0 : len ≠ 0 := by omega
  cases he : fd.err with
  | some e =>
      rw [cat_of_err fd len e h0 he]
      exact ⟨fun p hp => absurd hp (List.not_mem_nil p), fun data w h => by cases h⟩
  | none =>
      rw [cat_of_ok fd len h0 he]
      have hlen2 : (fd.contents.take (len - 1)).length ≤ len - 1 := by
        simp only [List.length_take]
        exact Nat.min_le_left _ _
      constructor
      · intro p hp
        simp only [CatResult.writes] at hp
        rcases List.mem_append.mp hp with h1 | h2
        · have := (idxWrites_mem 0 _ p h1).2
          omega
        · have : p = ((fd.contents.take (len - 1)).length, nulChar) := by simpa using h2
          rw [this]
          simp only []
          omega
      · intro data w h
        injection h with h1 h2
        subst h1
        exact ⟨hlen2, h2.symm⟩

/-- Witness for `cat_writes_stay_in_bounds` at a concrete descriptor and
capacity. -/
theorem cat_writes_stay_in_bounds_witness :
    (∀ p ∈ CatResult.writes (cat ⟨"10000\n".data, 0, none⟩ 4), p.1 < 4) ∧
    (∀ data w, cat ⟨"10000\n".data, 0, none⟩ 4 = CatResult.ok data w →
        data.length ≤ 3 ∧ w = idxWrites 0 data ++ [(data.length, nulChar)]) :=
  cat_writes_stay_in_bounds ⟨"10000\n".data, 0, none⟩ 4 (by decide)

end Udon

namespace Udon

lemma round_mono_rat {x y : ℚ} (h : x ≤ y) : round x ≤ round y := by
  rw [round_eq, round_eq]
  exact Int.floor_mono (by linarith)

lemma round_hundred : round (100 : ℚ) = 100 := by
  rw [show (100 : ℚ) = ((100 : ℤ) : ℚ) by norm_num]
  exact round_intCast 100

lemma roundTo2_nonneg {q : ℚ} (h : 0 ≤ q) : 0 ≤ roundTo2 q := by
  unfold roundTo2
  have h1 : (0 : ℤ) ≤ round (100 * q) := by
    have := round_mono_rat (show (0 : ℚ) ≤ 100 * q by linarith)
    simpa using this
  positivity

lemma roundTo2_le_one {q : ℚ} (h : q ≤ 1) : roundTo2 q ≤ 1 := by
  unfold roundTo2
  have h1 : round (100 * q) ≤ 100 := by
    have := round_mono_rat (show 100 * q ≤ (100 : ℚ) by linarith)
    rwa [round_hundred] at this
  rw [div_le_one (by norm_num : (0:ℚ) < 100)]
  exact_mod_cast h1

lemma fixed2Rat_congr {q1 q2 : ℚ} (h : round (100 * q1) = round (100 * q2)) :
    fixed2Rat q1 = fixed2Rat q2 := by
  unfold fixed2Rat
  rw [h]

lemma round_roundTo2 (q : ℚ) : round (100 * roundTo2 q) = round (100 * q) := by
  unfold roundTo2
  rw [mul_comm (100 : ℚ), div_mul_cancel₀ _ (by norm_num : (100:ℚ) ≠ 0), round_intCast]

lemma fixed2Rat_roundTo2 (q : ℚ) : fixed2Rat (roundTo2 q) = fixed2Rat q :=
  fixed2Rat_congr (round_roundTo2 q)

/-- C3: with a positive parsed full-energy value `F`, the battery quotient
is the finite value `N / F`; the final field of the formatted line is the
`%.2f` rendering of `N / F` rounded to two decimal places; and when
`0 ≤ N ≤ F` that rounded fraction lies in `[0, 1]`. -/
theorem battery_fraction_is_rounded_quotient (N F : ℚ) (hF : 0 < F) :
    fdiv N F = FloatVal.finite (N / F) ∧
    (∀ hh mm ss a1 a5 a15, ∃ p : String,
        formatLine hh mm ss a1 a5 a15 (fdiv N F) = p ++ fixed2Rat (roundTo2 (N / F))) ∧
    (0 ≤ N → N ≤ F → 0 ≤ roundTo2 (N / F) ∧ roundTo2 (N / F) ≤ 1) := by
  have hF0 : F ≠ 0 := ne_of_gt hF
  have hfd : fdiv N F = FloatVal.finite (N / F) := by simp [fdiv, hF0]
  refine ⟨hfd, ?_, ?_⟩
  · intro hh mm ss a1 a5 a15
    refine ⟨pad2 hh ++ ":" ++ pad2 mm ++ ":" ++ pad2 ss ++ "  " ++
      fixed2 a1 ++ " " ++ fixed2 a5 ++ " " ++ fixed2 a15 ++ "  ", ?_⟩
    rw [formatLine, hfd]
    show _ ++ fixed2 (FloatVal.finite (N / F)) = _
    rw [fixed2, fixed2Rat_roundTo2]
  · intro hN hNF
    constructor
    · exact roundTo2_nonneg (div_nonneg hN (le_of_lt hF))
    · exact roundTo2_le_one ((div_le_one hF).mpr hNF)

/-- Witness for `battery_fraction_is_rounded_quotient` at the concrete
readings 5000 / 10000. -/
theorem battery_fraction_is_rounded_quotient_witness :
    fdiv 5000 10000 = FloatVal.finite ((5000 : ℚ) / 10000) ∧
    (∀ hh mm ss a1 a5 a15, ∃ p : String,
        formatLine hh mm ss a1 a5 a15 (fdiv 5000 10000) =
          p ++ fixed2Rat (roundTo2 ((5000 : ℚ) / 10000))) ∧
    ((0 : ℚ) ≤ 5000 → (5000 : ℚ) ≤ 10000 →
        0 ≤ roundTo2 ((5000 : ℚ) / 10000) ∧ roundTo2 ((5000 : ℚ) / 10000) ≤ 1) :=
  battery_fraction_is_rounded_quotient 5000 10000 (by norm_num)

end Udon

namespace Udon

/-- C4: a failed read from any of the three metric sources makes the
iteration call `die`, which writes a diagnostic naming the failing file's
path and the `strerror` description of the error to standard error and
terminates the process at once with the non-zero status `EXIT_FAILURE`;
there is no retry (the result is `died`, not a continuing `ok`). -/
theorem read_failure_is_fatal (hh mm ss : Nat) (j1 j5 j15 : FloatVal)
    (lf nf ff : FileDesc) (e : Nat) :
    (lf.err = some e →
      step hh mm ss j1 j5 j15 lf nf ff =
        StepResult.died
          ("Failed to read from “" ++ LOADAVG ++ "”: " ++ strerror e ++ "\n") EXIT_FAILURE) ∧
    (lf.err = none → nf.err = some e →
      step hh mm ss j1 j5 j15 lf nf ff =
        StepResult.died
          ("Failed to read from “" ++ ENGYNOW ++ "”: " ++ strerror e ++ "\n") EXIT_FAILURE) ∧
    (lf.err = none → nf.err = none → ff.err = some e →
      step hh mm ss j1 j5 j15 lf nf ff =
        StepResult.died
          ("Failed to read from “" ++ ENGYFUL ++ "”: " ++ strerror e ++ "\n") EXIT_FAILURE) ∧
    EXIT_FAILURE ≠ 0 := by
  have h0 : AVGSIZE ≠ 0 := by decide
  refine ⟨?_, ?_, ?_, by decide⟩
  · intro hl
    rw [step, cat_of_err lf AVGSIZE e h0 hl]
  · intro hl hn
    rw [step, cat_of_ok lf AVGSIZE h0 hl, cat_of_err nf AVGSIZE e h0 hn]
  · intro hl hn hf
    rw [step, cat_of_ok lf AVGSIZE h0 hl, cat_of_ok nf AVGSIZE h0 hn,
      cat_of_err ff AVGSIZE e h0 hf]

/-- Witness for `read_failure_is_fatal`: applies each of the three branches
at concrete descriptors failing with an input/output error. -/
theorem read_failure_is_fatal_witness :
    step 7 9 3 (FloatVal.finite 0) (FloatVal.finite 0) (FloatVal.finite 0)
        ⟨"0.50 0.75 1.20\n".data, 0, some EIO⟩ ⟨"5000\n".data, 0, none⟩
        ⟨"10000\n".data, 0, none⟩ =
      StepResult.died
        ("Failed to read from “" ++ LOADAVG ++ "”: " ++ strerror EIO ++ "\n") EXIT_FAILURE ∧
    step 7 9 3 (FloatVal.finite 0) (FloatVal.finite 0) (FloatVal.finite 0)
        ⟨"0.50 0.75 1.20\n".data, 0, none⟩ ⟨"5000\n".data, 0, some EIO⟩
        ⟨"10000\n".data, 0, none⟩ =
      StepResult.died
        ("Failed to read from “" ++ ENGYNOW ++ "”: " ++ strerror EIO ++ "\n") EXIT_FAILURE ∧
    step 7 9 3 (FloatVal.finite 0) (FloatVal.finite 0) (FloatVal.finite 0)
        ⟨"0.50 0.75 1.20\n".data, 0, none⟩ ⟨"5000\n".data, 0, none⟩
        ⟨"10000\n".data, 0, some EIO⟩ =
      StepResult.died
        ("Failed to read from “" ++ ENGYFUL ++ "”: " ++ strerror EIO ++ "\n") EXIT_FAILURE ∧
    EXIT_FAILURE ≠ 0 :=
  ⟨(read_failure_is_fatal 7 9 3 (FloatVal.finite 0) (FloatVal.finite 0) (FloatVal.finite 0)
      ⟨"0.50 0.75 1.20\n".data, 0, some EIO⟩ ⟨"5000\n".data, 0, none⟩
      ⟨"10000\n".data, 0, none⟩ EIO).1 rfl,
   (read_failure_is_fatal 7 9 3 (FloatVal.finite 0) (FloatVal.finite 0) (FloatVal.finite 0)
      ⟨"0.50 0.75 1.20\n".data, 0, none⟩ ⟨"5000\n".data, 0, some EIO⟩
      ⟨"10000\n".data, 0, none⟩ EIO).2.1 rfl rfl,
   (read_failure_is_fatal 7 9 3 (FloatVal.finite 0) (FloatVal.finite 0) (FloatVal.finite 0)
      ⟨"0.50 0.75 1.20\n".data, 0, none⟩ ⟨"5000\n".data, 0, none⟩
      ⟨"10000\n".data, 0, some EIO⟩ EIO).2.2.1 rfl rfl rfl,
   (read_failure_is_fatal 0 0 0 FloatVal.nan FloatVal.nan FloatVal.nan
      ⟨[], 0, none⟩ ⟨[], 0, none⟩ ⟨[], 0, none⟩ 0).2.2.2⟩

/-- C5: delivering any of the three handled signals to the running process
(not yet exited, cleanup not yet run) runs `onsignal`, which exits with
status `EXIT_SUCCESS = 0`; the exit handler thereby runs exactly once,
resetting the root window name to the empty string and closing the display
connection. -/
theorem signal_exits_cleanly (s : ProcState) (sig : Nat)
    (hrun : s.exited = none) (hclean : s.cleanupRuns = 0) (hsig : sig ∈ handledSignals) :
    deliver sig s = onsignal s ∧
    (deliver sig s).exited = some EXIT_SUCCESS ∧
    EXIT_SUCCESS = 0 ∧
    (deliver sig s).cleanupRuns = 1 ∧
    (deliver sig s).rootName = "" ∧
    (deliver sig s).displayOpen = false := by
  have hd : deliver sig s = onsignal s := by
    unfold deliver
    rw [if_pos hsig]
  refine ⟨hd, ?_, rfl, ?_, ?_, ?_⟩ <;>
    simp [hd, onsignal, exitWith, onexit, hclean, EXIT_SUCCESS]

/-- Witness for `signal_exits_cleanly`: SIGINT delivered to a concrete
running state. -/
theorem signal_exits_cleanly_witness :
    deliver SIGINT ⟨"07:09:03  0.50 0.75 1.20  0.50", true, 0, none⟩ =
        onsignal ⟨"07:09:03  0.50 0.75 1.20  0.50", true, 0, none⟩ ∧
    (deliver SIGINT ⟨"07:09:03  0.50 0.75 1.20  0.50", true, 0, none⟩).exited =
        some EXIT_SUCCESS ∧
    EXIT_SUCCESS = 0 ∧
    (deliver SIGINT ⟨"07:09:03  0.50 0.75 1.20  0.50", true, 0, none⟩).cleanupRuns = 1 ∧
    (deliver SIGINT ⟨"07:09:03  0.50 0.75 1.20  0.50", true, 0, none⟩).rootName = "" ∧
    (deliver SIGINT ⟨"07:09:03  0.50 0.75 1.20  0.50", true, 0, none⟩).displayOpen = false :=
  signal_exits_cleanly ⟨"07:09:03  0.50 0.75 1.20  0.50", true, 0, none⟩ SIGINT
    rfl rfl (by decide)

/-- C8: when the parsed full-energy value is zero the iteration neither
branches on it nor dies: the division is still performed, its non-finite
result is passed to the `%.2f` formatter inside `formatLine`, the display is
updated with the resulting string, and the loop goes on to the next
iteration (`StepResult.ok`). -/
theorem zero_full_energy_not_guarded (hh mm ss : Nat) (j1 j5 j15 : FloatVal)
    (lf nf ff : FileDesc)
    (hl : lf.err = none) (hn : nf.err = none) (hf : ff.err = none)
    (hzero : atofChars (ff.contents.take (AVGSIZE - 1)) = 0) :
    step hh mm ss j1 j5 j15 lf nf ff =
      StepResult.ok (trunc (formatLine hh mm ss j1 j5 j15
        (fdiv (atofChars (nf.contents.take (AVGSIZE - 1))) 0))) ∧
    FloatVal.isFinite (fdiv (atofChars (nf.contents.take (AVGSIZE - 1))) 0) = false := by
  have h0 : AVGSIZE ≠ 0 := by decide
  have hok : step hh mm ss j1 j5 j15 lf nf ff =
      StepResult.ok (trunc (formatLine hh mm ss j1 j5 j15
        (fdiv (atofChars (nf.contents.take (AVGSIZE - 1)))
          (atofChars (ff.contents.take (AVGSIZE - 1)))))) := by
    rw [step, cat_of_ok lf AVGSIZE h0 hl, cat_of_ok nf AVGSIZE h0 hn,
      cat_of_ok ff AVGSIZE h0 hf]
  constructor
  · rw [hok, hzero]
  · by_cases hx : atofChars (nf.contents.take (AVGSIZE - 1)) = 0 <;>
      simp [fdiv, hx, FloatVal.isFinite]

/-- Witness for `zero_full_energy_not_guarded`: concrete iteration with
`energy_full` reading `"0"`. -/
theorem zero_full_energy_not_guarded_witness :
    step 7 9 3 (FloatVal.finite 0) (FloatVal.finite 0) (FloatVal.finite 0)
        ⟨"0.50 0.75 1.20\n".data, 0, none⟩ ⟨"5000\n".data, 0, none⟩ ⟨"0\n".data, 0, none⟩ =
      StepResult.ok (trunc (formatLine 7 9 3 (FloatVal.finite 0) (FloatVal.finite 0)
        (FloatVal.finite 0)
        (fdiv (atofChars (((⟨"5000\n".data, 0, none⟩ : FileDesc)).contents.take (AVGSIZE - 1))) 0))) ∧
    FloatVal.isFinite
      (fdiv (atofChars (((⟨"5000\n".data, 0, none⟩ : FileDesc)).contents.take (AVGSIZE - 1))) 0) =
      false :=
  zero_full_energy_not_guarded 7 9 3 (FloatVal.finite 0) (FloatVal.finite 0) (FloatVal.finite 0)
    ⟨"0.50 0.75 1.20\n".data, 0, none⟩ ⟨"5000\n".data, 0, none⟩ ⟨"0\n".data, 0, none⟩
    rfl rfl rfl (by with_unfolding_all decide)

end Udon

namespace Udon

set_option maxRecDepth 80000

/-- C1: evaluation of the iteration at the claim's input (loadavg
`"0.50 0.75 1.20 ..."`, energy 5000/10000, time 07:09:03 UTC, the never
assigned load-average variables holding 0.0): because the `sscanf`
conversion `%.2f` is invalid and parses nothing (see `step`), the displayed
string is `"07:09:03  0.00 0.00 0.00  0.50"` — which differs from the
specified `"07:09:03  0.50 0.75 1.20  0.50"`. -/
theorem loadavg_never_parsed :
    step 7 9 3 (FloatVal.finite 0) (FloatVal.finite 0) (FloatVal.finite 0)
        ⟨"0.50 0.75 1.20 2/345 6789\n".data, 0, none⟩
        ⟨"5000\n".data, 0, none⟩ ⟨"10000\n".data, 0, none⟩ =
      StepResult.ok "07:09:03  0.00 0.00 0.00  0.50" ∧
    "07:09:03  0.00 0.00 0.00  0.50" ≠ "07:09:03  0.50 0.75 1.20  0.50" := by
  with_unfolding_all decide

/-- C2: on an iteration whose formatted content does not fit the buffer
(`longLine`, 160 bytes), `snprintf` stores exactly `NAMSIZE - 1 = 127`
content bytes (at indices 0..126) and a terminator at index 127 — but the
truncation fixup `nam[sizeof nam] = '\0'` (udon.c line 159) additionally
stores at index `NAMSIZE = 128`, one past the end of the 128-byte buffer
whose valid indices are 0..127. -/
theorem truncation_fixup_stores_past_buffer :
    NAMSIZE ≤ longLine.length ∧
    (longLine.data.take (NAMSIZE - 1)).length = NAMSIZE - 1 ∧
    (NAMSIZE - 1, nulChar) ∈ namWrites longLine ∧
    (NAMSIZE, nulChar) ∈ namWrites longLine := by
  with_unfolding_all decide

end Udon
